import Mathlib

/-!
Shallow embedding of the `pix` pixel library core (`src/el.rs`, `src/gray.rs`).

A pixel is a list of channel values over an abstract channel-value type `C`.
The external capabilities (channel arithmetic, alpha mode, gamma mode, color
model, Porter-Duff operator) are external collaborators of the core; they are
embedded as records of functions, each carrying a `Nat` id standing for the
Rust `TypeId` that the source compares with `==` / `!=`.  Rust `panic!` (and
`unwrap` on `None`) is embedded as `Option.none`.
-/

namespace Pix

/-- Channel capability: the `Channel` trait operations the core consumes
(`MAX`, saturating `-`, coverage `*`). -/
structure ChanT (C : Type) where
  max : C
  sub : C → C → C
  mul : C → C → C

/-- Alpha-mode capability: `TypeId` stand-in plus `encode` / `decode`
(channel value, alpha value). -/
structure AlphaT (C : Type) where
  id : Nat
  encode : C → C → C
  decode : C → C → C

/-- Gamma-mode capability: `TypeId` stand-in plus `to_linear` / `from_linear`. -/
structure GammaT (C : Type) where
  id : Nat
  to_linear : C → C
  from_linear : C → C

/-- Color-model capability: `TypeId` stand-in, `ALPHA` channel index, `LINEAR`
index range (`linear_lo..linear_hi`), and the RGBA hub conversions. -/
structure ColorModelT (C : Type) where
  id : Nat
  alpha : Nat
  linear_lo : Nat
  linear_hi : Nat
  into_rgba : List C → List C
  from_rgba : List C → List C

/-- A pixel format: arity `n` (the `PixN` container used) plus the four
capability tags `(Chan, Model, Alpha, Gamma)` of the `Pixel` trait. -/
structure PixFmt (C : Type) where
  n : Nat
  chan : ChanT C
  model : ColorModelT C
  alpha : AlphaT C
  gamma : GammaT C

variable {C : Type}

/-- Accessor `Pixel::one`: `*self.channels().get(0).unwrap_or(&Self::Chan::MAX)`. -/
def one (F : PixFmt C) (p : List C) : C :=
  ((p.get? 0).getD F.chan.max)

/-- Accessor `Pixel::two`. -/
def two (F : PixFmt C) (p : List C) : C :=
  ((p.get? 1).getD F.chan.max)

/-- Accessor `Pixel::three`. -/
def three (F : PixFmt C) (p : List C) : C :=
  ((p.get? 2).getD F.chan.max)

/-- Accessor `Pixel::four`. -/
def four (F : PixFmt C) (p : List C) : C :=
  ((p.get? 3).getD F.chan.max)

/-- The common pattern of the positional accessors at an arbitrary index:
`channels().get(k).unwrap_or(&MAX)`.  `one`/`two`/`three`/`four` are its
instances at `k = 0, 1, 2, 3`. -/
def chanGet (F : PixFmt C) (p : List C) (k : Nat) : C :=
  ((p.get? k).getD F.chan.max)

/-- Accessor `Pixel::alpha`: `*chan.get(Self::Model::ALPHA).unwrap_or(&Self::Chan::MAX)`. -/
def alphaGet (F : PixFmt C) (p : List C) : C :=
  ((p.get? F.model.alpha).getD F.chan.max)

/-- Constructor `PixN::from_bit_depth::<P>(p)`: panic (`none`) when the two color-model
`TypeId`s differ; otherwise read the first `n` positional accessors of the
source (defaulting to the source's channel `MAX` past its arity) and convert
each through the destination channel type's `From` impl `cv`. -/
def from_bit_depth (D S : PixFmt C) (cv : C → C) (p : List C) : Option (List C) :=
  if D.model.id ≠ S.model.id then
    none
  else
    some ((List.range D.n).map fun k => cv (chanGet S p k))

/-- In-place update of the sub-slice `l[lo..hi]` by `f`, leaving every other
element unchanged (the `for c in channels[D::Model::LINEAR].iter_mut()` loop). -/
def mapRange (lo hi : Nat) (f : C → C) (l : List C) : List C :=
  l.mapIdx fun i c => if lo ≤ i ∧ i < hi then f c else c

/-- Pass `convert_alpha_gamma::<D, S>(channels, alpha)`: over `D::Model::LINEAR`
apply `S::Gamma::to_linear`, then (only when the alpha `TypeId`s differ)
`S::Alpha::decode` followed by `D::Alpha::encode` with the given alpha, then
`D::Gamma::from_linear`. -/
def convert_alpha_gamma (D S : PixFmt C) (channels : List C) (a : C) : List C :=
  mapRange D.model.linear_lo D.model.linear_hi
    (fun c =>
      let c1 := S.gamma.to_linear c
      let c2 :=
        if S.alpha.id ≠ D.alpha.id then D.alpha.encode (S.alpha.decode c1 a) a
        else c1
      D.gamma.from_linear c2)
    channels

/-- Function `convert_same_model::<D, S>(src)`: `D::from_bit_depth(src)`, then when the
alpha or gamma `TypeId`s differ, read the (already precision-converted) alpha
and run `convert_alpha_gamma` over the channels. -/
def convert_same_model (D S : PixFmt C) (cv : C → C) (src : List C) :
    Option (List C) :=
  match from_bit_depth D S cv src with
  | none => none
  | some dst =>
    if S.alpha.id ≠ D.alpha.id ∨ S.gamma.id ≠ D.gamma.id then
      some (convert_alpha_gamma D S dst (alphaGet D dst))
    else
      some dst

/-- Type `PixRgba<P>`: the 4-channel hub format `Pix4<P::Chan, Rgb, P::Alpha,
P::Gamma>`; the `Rgb` model itself is a collaborator passed as `rgbModel`. -/
def pixRgba (P : PixFmt C) (rgbModel : ColorModelT C) : PixFmt C :=
  { n := 4
    chan := P.chan
    model := rgbModel
    alpha := P.alpha
    gamma := P.gamma }

/-- Function `convert_thru_rgba::<D, S>(src)`: `S::Model::into_rgba`, then
`convert_same_model::<PixRgba<D>, PixRgba<S>>`, then `D::Model::from_rgba`. -/
def convert_thru_rgba (D S : PixFmt C) (rgbModel : ColorModelT C) (cv : C → C)
    (src : List C) : Option (List C) :=
  match convert_same_model (pixRgba D rgbModel) (pixRgba S rgbModel) cv
      (S.model.into_rgba src) with
  | none => none
  | some rgba => some (D.model.from_rgba rgba)

/-- Method `Pixel::convert::<D>(self)`: dispatch on equality of the color-model
`TypeId`s between the same-model path and the RGBA hub path. -/
def convert (D S : PixFmt C) (rgbModel : ColorModelT C) (cv : C → C)
    (src : List C) : Option (List C) :=
  if S.model.id = D.model.id then
    convert_same_model D S cv src
  else
    convert_thru_rgba D S rgbModel cv src

/-- The compositing loop
`d_chan.iter_mut().zip(s_chan).for_each(|(d, s)| ...)` where `d_chan` and
`s_chan` are the `lo..hi` sub-slices of `dst` and `src`: each destination
element in the range is combined with the source element at the same index;
elements outside the range (or beyond the zip) are unchanged. -/
def compositeRange (lo hi : Nat) (f : C → C → C) (dst src : List C) :
    List C :=
  dst.mapIdx fun i d =>
    if lo ≤ i ∧ i < hi then
      match src.get? i with
      | some s => f d s
      | none => d
    else d

/-- Method `Pixel::composite_channels(&mut self, src, op)`: coverage complements
`da1 = MAX - self.alpha()`, `sa1 = MAX - src.alpha()`, the Porter-Duff
operator over the `LINEAR` sub-slices, then over the alpha channel
(`alpha_mut().unwrap()` panics — `none` — when `ALPHA` is out of range). -/
def composite_channels (F : PixFmt C) (op : C → C → C → C → C)
    (dst src : List C) : Option (List C) :=
  let da1 := F.chan.sub F.chan.max (alphaGet F dst)
  let sa1 := F.chan.sub F.chan.max (alphaGet F src)
  let d1 := compositeRange F.model.linear_lo F.model.linear_hi
    (fun d s => op d da1 s sa1) dst src
  match d1.get? F.model.alpha with
  | none => none
  | some dAlpha =>
    some (d1.set F.model.alpha (op dAlpha da1 (alphaGet F src) sa1))

/-- Method `Pixel::composite_channels_matte(&mut self, alpha, src, op)`:
`da1 = MAX - self.alpha()`, `sa1 = MAX - *alpha` (the matte alpha), operator
applied to `*s * *alpha` over the `LINEAR` sub-slices, then to
`src.alpha() * *alpha` over the alpha channel. -/
def composite_channels_matte (F : PixFmt C) (op : C → C → C → C → C)
    (matte : C) (dst src : List C) : Option (List C) :=
  let da1 := F.chan.sub F.chan.max (alphaGet F dst)
  let sa1 := F.chan.sub F.chan.max matte
  let d1 := compositeRange F.model.linear_lo F.model.linear_hi
    (fun d s => op d da1 (F.chan.mul s matte) sa1) dst src
  match d1.get? F.model.alpha with
  | none => none
  | some dAlpha =>
    some (d1.set F.model.alpha
      (op dAlpha da1 (F.chan.mul (alphaGet F src) matte) sa1))

end Pix

namespace PixLegacy

/-! Embedding of the legacy `src/gray.rs` design: the concrete two-field
gray-plus-alpha type `Gray<C, A>`.  The channel type `C` and the alpha
container `A` (`Opaque<C>` / `Translucent<C>`) are external; `GrayOps`
carries the operations the embedded code consumes: the channel's `Ord::max`,
`Alpha::value()` and the `From<C>` impl for `A`. -/

/-- Container `struct Gray<C, A>` with fields `value: C` and `alpha: A`. -/
structure Gray (C A : Type) where
  value : C
  alpha : A

/-- Operations of the external `Channel` / `Alpha` collaborators used by
`gray.rs`. -/
structure GrayOps (C A : Type) where
  cmax : C → C → C
  alphaValue : A → C
  alphaFromC : C → A

variable {C A : Type}

/-- Method `Gray::rgba`: `[self.value, self.value, self.value, self.alpha.value()]`. -/
def Gray.rgba (ops : GrayOps C A) (g : Gray C A) : C × C × C × C :=
  (g.value, g.value, g.value, ops.alphaValue g.alpha)

/-- Method `Gray::with_rgba`: value is `rgba[0].max(rgba[1]).max(rgba[2])`, alpha is
`rgba[3]`, assembled by `Gray::with_alpha` (whose `C: From<C>` conversion is
the identity and whose `A: From<C>` conversion is `alphaFromC`). -/
def Gray.with_rgba (ops : GrayOps C A) (r : C × C × C × C) : Gray C A :=
  { value := ops.cmax (ops.cmax r.1 r.2.1) r.2.2.1
    alpha := ops.alphaFromC r.2.2.2 }

/-- Iterator impl for `Gray`: `next(&mut self)` returns `Some(*self)` and
leaves the state unchanged; embedded as `state → (result, new state)`. -/
def grayNext (g : Gray C A) : Option (Gray C A) × Gray C A :=
  (some g, g)

end PixLegacy

namespace Pix

/-! Helper lemmas about `mapRange` and list access. -/

variable {C : Type}

theorem get?_mapIdx (l : List C) (f : Nat → C → C) (i : Nat) :
    (l.mapIdx f).get? i = (l.get? i).map (f i) := by
  rcases Nat.lt_or_ge i l.length with h | h
  · have h' : i < (l.mapIdx f).length := by
      rw [List.length_mapIdx]; exact h
    rw [List.get?_eq_get h, List.get?_eq_get h', List.get_mapIdx]
    rfl
  · have h' : (l.mapIdx f).length ≤ i := by
      rw [List.length_mapIdx]; exact h
    rw [List.get?_eq_none.mpr h, List.get?_eq_none.mpr h']
    rfl

theorem mapRange_get? (lo hi : Nat) (f : C → C) (l : List C) (i : Nat) :
    (mapRange lo hi f l).get? i =
      (l.get? i).map (fun c => if lo ≤ i ∧ i < hi then f c else c) := by
  unfold mapRange
  rw [get?_mapIdx]

theorem mapRange_length (lo hi : Nat) (f : C → C) (l : List C) :
    (mapRange lo hi f l).length = l.length := by
  unfold mapRange
  rw [List.length_mapIdx]

theorem range_map_getD (l : List C) (d : C) :
    (List.range l.length).map (fun k => (l.get? k).getD d) = l := by
  apply List.ext_get
  · simp
  · intro i h1 h2
    simp only [List.length_map, List.length_range] at h1
    rw [List.get_map]
    simp only [List.get_range]
    rw [List.get?_eq_get h2]
    rfl

/-! ### C1: converting a pixel to its own format is the identity -/

/-- C1: for every pixel format and every pixel of that format (channel list of
length `n`), with the reflexive channel conversion (Rust's identity
`impl From<T> for T`), `p.convert::<Self>() == p`: the same-model path is
taken, `from_bit_depth` succeeds and reproduces the channels, and the
alpha/gamma pass is skipped since the tags coincide. -/
theorem c1_convert_self_id (F : PixFmt C) (rgbModel : ColorModelT C)
    (cv : C → C) (p : List C) (hcv : ∀ v, cv v = v) (hlen : p.length = F.n) :
    convert F F rgbModel cv p = some p := by
  unfold convert
  rw [if_pos rfl]
  unfold convert_same_model from_bit_depth
  rw [if_neg (by simp)]
  have hchan : ((List.range F.n).map fun k => cv (chanGet F p k)) = p := by
    have h1 : ∀ k, cv (chanGet F p k) = (p.get? k).getD F.chan.max := by
      intro k
      rw [hcv]
      rfl
    calc ((List.range F.n).map fun k => cv (chanGet F p k))
        = (List.range F.n).map fun k => (p.get? k).getD F.chan.max := by
          exact List.map_congr_left fun k _ => h1 k
      _ = (List.range p.length).map fun k => (p.get? k).getD F.chan.max := by
          rw [hlen]
      _ = p := range_map_getD p F.chan.max
  simp only [hchan]
  rw [if_neg (by simp)]

/-! Concrete instantiations of the external capabilities (8-bit-style channel
over `Nat`, a gray-like 2-channel model, an RGBA model, straight and
premultiplied alpha, linear and encoded gamma), used to evaluate the theorems
on closed inputs. -/

/-- Example channel: 8-bit-style values as `Nat`. -/
def natChan : ChanT Nat :=
  { max := 255, sub := fun a b => a - b, mul := fun a b => a * b / 255 }

/-- Example 2-channel gray-plus-alpha color model (value at 0, alpha at 1). -/
def grayModel : ColorModelT Nat :=
  { id := 0, alpha := 1, linear_lo := 0, linear_hi := 1
    into_rgba := fun p => [p.getD 0 0, p.getD 0 0, p.getD 0 0, p.getD 1 255]
    from_rgba := fun r => [r.getD 0 0, r.getD 3 255] }

/-- Example 4-channel RGBA color model (colors at 0..3, alpha at 3). -/
def rgbaModel : ColorModelT Nat :=
  { id := 1, alpha := 3, linear_lo := 0, linear_hi := 3
    into_rgba := fun p => p, from_rgba := fun r => r }

/-- Example straight alpha mode. -/
def straightA : AlphaT Nat :=
  { id := 0, encode := fun c _ => c, decode := fun c _ => c }

/-- Example premultiplied alpha mode. -/
def premulA : AlphaT Nat :=
  { id := 1, encode := fun c a => c * a / 255
    decode := fun c a => if a = 0 then 0 else min 255 (c * 255 / a) }

/-- Example linear gamma mode. -/
def linearG : GammaT Nat :=
  { id := 0, to_linear := fun c => c, from_linear := fun c => c }

/-- Example encoded (quadratic-curve) gamma mode. -/
def curveG : GammaT Nat :=
  { id := 1, to_linear := fun c => c * c / 255
    from_linear := fun c => Nat.sqrt (c * 255) }

/-- Example gray-plus-alpha pixel format (straight alpha, linear gamma). -/
def grayFmt : PixFmt Nat :=
  { n := 2, chan := natChan, model := grayModel, alpha := straightA
    gamma := linearG }

/-- Example RGBA pixel format (premultiplied alpha, linear gamma). -/
def rgbaFmt : PixFmt Nat :=
  { n := 4, chan := natChan, model := rgbaModel, alpha := premulA
    gamma := linearG }

/-- Witness for C1 at a concrete format and pixel. -/
theorem c1_convert_self_id_witness :
    convert grayFmt grayFmt rgbaModel id [7, 9] = some [7, 9] :=
  c1_convert_self_id grayFmt rgbaModel id [7, 9] (fun _ => rfl) rfl

/-- Example RGBA pixel format with straight alpha (same model as `rgbaFmt`). -/
def rgbaFmtS : PixFmt Nat :=
  { n := 4, chan := natChan, model := rgbaModel, alpha := straightA
    gamma := linearG }

theorem compositeRange_get? (lo hi : Nat) (f : C → C → C) (dst src : List C)
    (i : Nat) :
    (compositeRange lo hi f dst src).get? i =
      (dst.get? i).map (fun d =>
        if lo ≤ i ∧ i < hi then
          match src.get? i with
          | some s => f d s
          | none => d
        else d) := by
  unfold compositeRange
  rw [get?_mapIdx]

theorem compositeRange_length (lo hi : Nat) (f : C → C → C)
    (dst src : List C) :
    (compositeRange lo hi f dst src).length = dst.length := by
  unfold compositeRange
  rw [List.length_mapIdx]

theorem set_get?_self (l : List C) (i : Nat) (a : C)
    (h : l.get? i = some a) : l.set i a = l := by
  apply List.ext_get?
  intro j
  rcases eq_or_ne j i with rfl | hne
  · rw [List.get?_set_eq_of_lt a (by
      rcases List.get?_eq_some.mp h with ⟨hlt, _⟩
      exact hlt)]
    exact h.symm
  · exact List.get?_set_ne a l hne.symm

/-! ### C2: dispatch between the same-model path and the RGBA hub path -/

/-- C2: `convert` takes the same-model path (`from_bit_depth` then the
optional alpha/gamma pass) exactly when the color-model ids coincide, and
otherwise goes `into_rgba` (source tags) → same-model conversion between the
two RGBA hub formats (`PixRgba` of source and destination) → `from_rgba`. -/
theorem c2_convert_dispatch (D S : PixFmt C) (rgbModel : ColorModelT C)
    (cv : C → C) (p : List C) :
    (S.model.id = D.model.id →
      convert D S rgbModel cv p =
        match from_bit_depth D S cv p with
        | none => none
        | some d0 =>
          if S.alpha.id ≠ D.alpha.id ∨ S.gamma.id ≠ D.gamma.id then
            some (convert_alpha_gamma D S d0 (alphaGet D d0))
          else some d0)
    ∧ (S.model.id ≠ D.model.id →
      convert D S rgbModel cv p =
        Option.map D.model.from_rgba
          (convert_same_model (pixRgba D rgbModel) (pixRgba S rgbModel) cv
            (S.model.into_rgba p))) := by
  constructor
  · intro h
    unfold convert
    rw [if_pos h]
    rfl
  · intro h
    unfold convert
    rw [if_neg h]
    unfold convert_thru_rgba
    cases convert_same_model (pixRgba D rgbModel) (pixRgba S rgbModel) cv
      (S.model.into_rgba p) <;> rfl

/-- Witness for C2: a same-model instance and a cross-model instance,
evaluated. -/
theorem c2_convert_dispatch_witness :
    convert grayFmt grayFmt rgbaModel id [7, 9] = some [7, 9] ∧
    convert rgbaFmt grayFmt rgbaModel id [7, 9] = some [0, 0, 0, 9] :=
  ⟨((c2_convert_dispatch grayFmt grayFmt rgbaModel id [7, 9]).1 rfl).trans
      (by decide),
   ((c2_convert_dispatch rgbaFmt grayFmt rgbaModel id [7, 9]).2
      (by decide)).trans (by decide)⟩

/-! ### C3: the alpha/gamma pass of a same-model conversion -/

/-- C3: in a same-model conversion whose alpha or gamma tags differ, the
result is the alpha/gamma pass over the precision-converted pixel `d0`; the
pass touches exactly the destination model's `LINEAR` color range — where it
applies, in order, source `to_linear`, then (only when the alpha tags differ)
source-alpha `decode` followed by destination-alpha `encode` with the
precision-converted alpha value, then destination `from_linear` — and every
channel outside that range, in particular the alpha channel when the model's
range excludes it, is untouched. -/
theorem c3_alpha_gamma_pass (D S : PixFmt C) (cv : C → C) (p d0 : List C)
    (hd0 : from_bit_depth D S cv p = some d0)
    (hdiff : S.alpha.id ≠ D.alpha.id ∨ S.gamma.id ≠ D.gamma.id) :
    convert_same_model D S cv p =
      some (convert_alpha_gamma D S d0 (alphaGet D d0))
    ∧ (∀ i, ¬(D.model.linear_lo ≤ i ∧ i < D.model.linear_hi) →
        (convert_alpha_gamma D S d0 (alphaGet D d0)).get? i = d0.get? i)
    ∧ (∀ i, D.model.linear_lo ≤ i → i < D.model.linear_hi →
        (convert_alpha_gamma D S d0 (alphaGet D d0)).get? i =
          (d0.get? i).map (fun c =>
            D.gamma.from_linear
              (if S.alpha.id ≠ D.alpha.id then
                D.alpha.encode
                  (S.alpha.decode (S.gamma.to_linear c) (alphaGet D d0))
                  (alphaGet D d0)
              else S.gamma.to_linear c)))
    ∧ (¬(D.model.linear_lo ≤ D.model.alpha ∧
          D.model.alpha < D.model.linear_hi) →
        alphaGet D (convert_alpha_gamma D S d0 (alphaGet D d0)) =
          alphaGet D d0) := by
  refine ⟨?_, ?_, ?_, ?_⟩
  · unfold convert_same_model
    rw [hd0]
    dsimp only
    rw [if_pos hdiff]
  · intro i hi
    unfold convert_alpha_gamma
    rw [mapRange_get?]
    cases h : d0.get? i
    · rfl
    · rw [Option.map_some']
      rw [if_neg hi]
  · intro i hlo hhi
    unfold convert_alpha_gamma
    rw [mapRange_get?]
    cases h : d0.get? i
    · rfl
    · rw [Option.map_some', Option.map_some']
      rw [if_pos ⟨hlo, hhi⟩]
  · intro hal
    unfold alphaGet
    unfold convert_alpha_gamma
    rw [mapRange_get?]
    cases h : d0.get? D.model.alpha
    · rfl
    · rw [Option.map_some']
      rw [if_neg hal]

/-- Witness for C3: precision-converted RGBA pixel `[10, 20, 30, 128]`,
straight→premultiplied (8-bit-style), linear gamma both sides. -/
theorem c3_alpha_gamma_pass_witness :
    convert_same_model rgbaFmt rgbaFmtS id [10, 20, 30, 128] =
      some (convert_alpha_gamma rgbaFmt rgbaFmtS [10, 20, 30, 128] 128)
    ∧ (convert_alpha_gamma rgbaFmt rgbaFmtS [10, 20, 30, 128] 128).get? 3 =
        some 128
    ∧ (convert_alpha_gamma rgbaFmt rgbaFmtS [10, 20, 30, 128] 128).get? 0 =
        some 5 := by
  have h := c3_alpha_gamma_pass rgbaFmt rgbaFmtS id [10, 20, 30, 128]
    [10, 20, 30, 128] (by decide) (Or.inl (by decide))
  refine ⟨?_, ?_, ?_⟩
  · have h1 := h.1
    have ha : alphaGet rgbaFmt [10, 20, 30, 128] = 128 := by decide
    rw [ha] at h1
    exact h1
  · have h2 := h.2.1 3 (by decide)
    have ha : alphaGet rgbaFmt [10, 20, 30, 128] = 128 := by decide
    rw [ha] at h2
    rw [h2]
    decide
  · have h3 := h.2.2.1 0 (by decide) (by decide)
    have ha : alphaGet rgbaFmt [10, 20, 30, 128] = 128 := by decide
    rw [ha] at h3
    rw [h3]
    decide

/-! ### C4: the compositing formula of `composite_channels` -/

/-- The final alpha write common to both compositing entry points:
`get_mut(ALPHA).unwrap()` then update (`none` on panic). -/
def setAlphaStep (l : List C) (a : Nat) (g : C → C) : Option (List C) :=
  match l.get? a with
  | none => none
  | some v => some (l.set a (g v))

theorem composite_channels_eq (F : PixFmt C) (op : C → C → C → C → C)
    (dst src : List C) :
    composite_channels F op dst src =
      setAlphaStep
        (compositeRange F.model.linear_lo F.model.linear_hi
          (fun d s => op d (F.chan.sub F.chan.max (alphaGet F dst)) s
            (F.chan.sub F.chan.max (alphaGet F src))) dst src)
        F.model.alpha
        (fun v => op v (F.chan.sub F.chan.max (alphaGet F dst))
          (alphaGet F src) (F.chan.sub F.chan.max (alphaGet F src))) :=
  rfl

/-- C4: with `da1 = MAX - dst.alpha()` and `sa1 = MAX - src.alpha()` taken
from the pre-call values, `composite_channels` sets every channel in the
model's `LINEAR` color range to `op dst[i] da1 src[i] sa1`, sets the alpha
channel to `op dst.alpha da1 src.alpha sa1`, and leaves every other channel
unchanged.  Hypotheses: the alpha index is within the pixel (else the call
panics) and outside the `LINEAR` range (the model invariant). -/
theorem c4_composite_channels (F : PixFmt C) (op : C → C → C → C → C)
    (dst src q : List C)
    (hal : F.model.alpha < dst.length)
    (hnl : ¬(F.model.linear_lo ≤ F.model.alpha ∧
      F.model.alpha < F.model.linear_hi))
    (hq : composite_channels F op dst src = some q) :
    q.length = dst.length
    ∧ (∀ i d s, F.model.linear_lo ≤ i → i < F.model.linear_hi →
        dst.get? i = some d → src.get? i = some s →
        q.get? i = some (op d (F.chan.sub F.chan.max (alphaGet F dst)) s
          (F.chan.sub F.chan.max (alphaGet F src))))
    ∧ q.get? F.model.alpha =
        some (op (alphaGet F dst) (F.chan.sub F.chan.max (alphaGet F dst))
          (alphaGet F src) (F.chan.sub F.chan.max (alphaGet F src)))
    ∧ (∀ j, ¬(F.model.linear_lo ≤ j ∧ j < F.model.linear_hi) →
        j ≠ F.model.alpha → q.get? j = dst.get? j) := by
  obtain ⟨aD, haD⟩ : ∃ a, dst.get? F.model.alpha = some a :=
    ⟨dst.get ⟨F.model.alpha, hal⟩, List.get?_eq_get hal⟩
  have hav : alphaGet F dst = aD := by
    unfold alphaGet
    rw [haD]
    rfl
  have hd1 : (compositeRange F.model.linear_lo F.model.linear_hi
      (fun d s => op d (F.chan.sub F.chan.max (alphaGet F dst)) s
        (F.chan.sub F.chan.max (alphaGet F src))) dst src).get?
      F.model.alpha = some aD := by
    rw [compositeRange_get?, haD, Option.map_some', if_neg hnl]
  rw [composite_channels_eq] at hq
  unfold setAlphaStep at hq
  rw [hd1] at hq
  dsimp only at hq
  have hqv := (Option.some.inj hq).symm
  subst hqv
  refine ⟨?_, ?_, ?_, ?_⟩
  · rw [List.length_set, compositeRange_length]
  · intro i d s hlo hhi hdi hsi
    have hne : F.model.alpha ≠ i := by
      intro hcon
      exact hnl (hcon ▸ ⟨hlo, hhi⟩)
    rw [List.get?_set_ne _ _ hne, compositeRange_get?, hdi, hsi,
      Option.map_some', if_pos ⟨hlo, hhi⟩]
  · have hlt : F.model.alpha <
        (compositeRange F.model.linear_lo F.model.linear_hi
          (fun d s => op d (F.chan.sub F.chan.max (alphaGet F dst)) s
            (F.chan.sub F.chan.max (alphaGet F src))) dst src).length := by
      rw [compositeRange_length]
      exact hal
    rw [List.get?_set_eq_of_lt _ hlt, hav]
  · intro j hj hne
    rw [List.get?_set_ne _ _ (Ne.symm hne), compositeRange_get?]
    cases hdj : dst.get? j
    · rfl
    · rw [Option.map_some', if_neg hj]

/-- Witness for C4: source-over on 8-bit-style RGBA values. -/
theorem c4_composite_channels_witness :
    ([52, 64, 76, 221] : List Nat).length = 4
    ∧ ([52, 64, 76, 221] : List Nat).get? 0 = some 52
    ∧ ([52, 64, 76, 221] : List Nat).get? 3 = some 221 := by
  have h := c4_composite_channels rgbaFmt
    (fun d da1 s sa1 => s + d * sa1 / 255)
    [10, 20, 30, 100] [50, 60, 70, 200] [52, 64, 76, 221]
    (by decide) (by decide) (by decide)
  refine ⟨?_, ?_, ?_⟩
  · exact h.1.trans (by decide)
  · exact (h.2.1 0 10 50 (by decide) (by decide) (by decide) (by decide)).trans
      (by decide)
  · exact h.2.2.1.trans (by decide)

/-! ### C5: the compositing formula of `composite_channels_matte` -/

theorem composite_channels_matte_eq (F : PixFmt C) (op : C → C → C → C → C)
    (matte : C) (dst src : List C) :
    composite_channels_matte F op matte dst src =
      setAlphaStep
        (compositeRange F.model.linear_lo F.model.linear_hi
          (fun d s => op d (F.chan.sub F.chan.max (alphaGet F dst))
            (F.chan.mul s matte) (F.chan.sub F.chan.max matte)) dst src)
        F.model.alpha
        (fun v => op v (F.chan.sub F.chan.max (alphaGet F dst))
          (F.chan.mul (alphaGet F src) matte)
          (F.chan.sub F.chan.max matte)) :=
  rfl

/-- The claim's reading of the matte variant, following the spec's words: the
effective source pixel has each `LINEAR` color channel scaled by the matte
alpha and its alpha channel equal to `src.alpha * matte_alpha`; the claim
asserts `composite_channels_matte` equals `composite_channels` against this
effective source (so that the source coverage complement would be `MAX`
minus the *effective* source alpha). -/
def specEffectiveSrc (F : PixFmt C) (matte : C) (src : List C) : List C :=
  (mapRange F.model.linear_lo F.model.linear_hi
    (fun s => F.chan.mul s matte) src).set F.model.alpha
    (F.chan.mul (alphaGet F src) matte)

/-- Counterexample to C5 as stated: with an operator returning the source
coverage complement, a fully transparent constant color and a full matte,
the code passes `sa1 = MAX - matte_alpha = 0` while the claim's effective
source alpha is `0`, giving complement `MAX`. -/
theorem c5_matte_coverage_counterexample :
    composite_channels_matte grayFmt (fun _ _ _ sa1 => sa1) 255 [10, 100]
        [20, 0] ≠
      composite_channels grayFmt (fun _ _ _ sa1 => sa1) [10, 100]
        (specEffectiveSrc grayFmt 255 [20, 0]) := by
  decide

/-- C5 amended: `composite_channels_matte` computes the same formula as
`composite_channels` with the effective source channel values
`src[i] * matte_alpha` and the alpha-channel source value
`src.alpha * matte_alpha`, but the source coverage complement passed to the
operator is `MAX - matte_alpha` itself, not `MAX` minus the effective
source alpha. -/
theorem c5_matte_formula (F : PixFmt C) (op : C → C → C → C → C)
    (matte : C) (dst src q : List C)
    (hal : F.model.alpha < dst.length)
    (hnl : ¬(F.model.linear_lo ≤ F.model.alpha ∧
      F.model.alpha < F.model.linear_hi))
    (hq : composite_channels_matte F op matte dst src = some q) :
    q.length = dst.length
    ∧ (∀ i d s, F.model.linear_lo ≤ i → i < F.model.linear_hi →
        dst.get? i = some d → src.get? i = some s →
        q.get? i = some (op d (F.chan.sub F.chan.max (alphaGet F dst))
          (F.chan.mul s matte) (F.chan.sub F.chan.max matte)))
    ∧ q.get? F.model.alpha =
        some (op (alphaGet F dst) (F.chan.sub F.chan.max (alphaGet F dst))
          (F.chan.mul (alphaGet F src) matte)
          (F.chan.sub F.chan.max matte))
    ∧ (∀ j, ¬(F.model.linear_lo ≤ j ∧ j < F.model.linear_hi) →
        j ≠ F.model.alpha → q.get? j = dst.get? j) := by
  obtain ⟨aD, haD⟩ : ∃ a, dst.get? F.model.alpha = some a :=
    ⟨dst.get ⟨F.model.alpha, hal⟩, List.get?_eq_get hal⟩
  have hav : alphaGet F dst = aD := by
    unfold alphaGet
    rw [haD]
    rfl
  have hd1 : (compositeRange F.model.linear_lo F.model.linear_hi
      (fun d s => op d (F.chan.sub F.chan.max (alphaGet F dst))
        (F.chan.mul s matte) (F.chan.sub F.chan.max matte)) dst src).get?
      F.model.alpha = some aD := by
    rw [compositeRange_get?, haD, Option.map_some', if_neg hnl]
  rw [composite_channels_matte_eq] at hq
  unfold setAlphaStep at hq
  rw [hd1] at hq
  dsimp only at hq
  have hqv := (Option.some.inj hq).symm
  subst hqv
  refine ⟨?_, ?_, ?_, ?_⟩
  · rw [List.length_set, compositeRange_length]
  · intro i d s hlo hhi hdi hsi
    have hne : F.model.alpha ≠ i := by
      intro hcon
      exact hnl (hcon ▸ ⟨hlo, hhi⟩)
    rw [List.get?_set_ne _ _ hne, compositeRange_get?, hdi, hsi,
      Option.map_some', if_pos ⟨hlo, hhi⟩]
  · have hlt : F.model.alpha <
        (compositeRange F.model.linear_lo F.model.linear_hi
          (fun d s => op d (F.chan.sub F.chan.max (alphaGet F dst))
            (F.chan.mul s matte) (F.chan.sub F.chan.max matte)) dst
          src).length := by
      rw [compositeRange_length]
      exact hal
    rw [List.get?_set_eq_of_lt _ hlt, hav]
  · intro j hj hne
    rw [List.get?_set_ne _ _ (Ne.symm hne), compositeRange_get?]
    cases hdj : dst.get? j
    · rfl
    · rw [Option.map_some', if_neg hj]

/-- Witness for the amended C5: source-over through a half matte. -/
theorem c5_matte_formula_witness :
    ([29, 39, 49, 149] : List Nat).length = 4
    ∧ ([29, 39, 49, 149] : List Nat).get? 0 = some 29
    ∧ ([29, 39, 49, 149] : List Nat).get? 3 = some 149 := by
  have h := c5_matte_formula rgbaFmt
    (fun d da1 s sa1 => s + d * sa1 / 255) 128
    [10, 20, 30, 100] [50, 60, 70, 200] [29, 39, 49, 149]
    (by decide) (by decide) (by decide)
  refine ⟨?_, ?_, ?_⟩
  · exact h.1.trans (by decide)
  · exact (h.2.1 0 10 50 (by decide) (by decide) (by decide) (by decide)).trans
      (by decide)
  · exact h.2.2.1.trans (by decide)

/-! ### C6: matte compositing at full and zero coverage -/

theorem compositeRange_id (lo hi : Nat) (dst src : List C) :
    compositeRange lo hi (fun d _ => d) dst src = dst := by
  apply List.ext_get?
  intro j
  rw [compositeRange_get?]
  cases h : dst.get? j
  · rfl
  · rw [Option.map_some']
    by_cases hj : lo ≤ j ∧ j < hi
    · rw [if_pos hj]
      cases src.get? j <;> rfl
    · rw [if_neg hj]

/-- Counterexample to C6 as stated: with an operator returning the source
coverage complement and a constant color of alpha `0`, compositing through a
full-coverage (`matte_alpha = MAX`) matte does not equal compositing the
color directly, because the code passes `sa1 = MAX - matte_alpha = 0` while
the direct call passes `sa1 = MAX - src.alpha() = MAX`. -/
theorem c6_matte_full_coverage_counterexample :
    composite_channels_matte grayFmt (fun _ _ _ sa1 => sa1) 255 [10, 100]
        [20, 0] ≠
      composite_channels grayFmt (fun _ _ _ sa1 => sa1) [10, 100] [20, 0] := by
  decide

/-- C6 amended: assuming the channel law `x * MAX = x`, compositing through a
full-coverage matte equals compositing directly *provided the constant color
is opaque* (`src.alpha() = MAX`); and compositing through a zero-coverage
matte (`z` the channel zero: `x * z = z`, `MAX - z = MAX`) leaves the
destination unchanged *provided the operator maps a transparent source with
full coverage complement to the destination* (`op d u z MAX = d`, as the
standard `over` does). -/
theorem c6_matte_endpoints (F : PixFmt C) (op : C → C → C → C → C)
    (dst src : List C)
    (hmulmax : ∀ x, F.chan.mul x F.chan.max = x) :
    (alphaGet F src = F.chan.max →
      composite_channels_matte F op F.chan.max dst src =
        composite_channels F op dst src)
    ∧ (∀ z, (∀ x, F.chan.mul x z = z) → F.chan.sub F.chan.max z = F.chan.max →
        (∀ d u, op d u z F.chan.max = d) → F.model.alpha < dst.length →
        composite_channels_matte F op z dst src = some dst) := by
  constructor
  · intro hsa
    have hf : (fun d s => op d (F.chan.sub F.chan.max (alphaGet F dst))
        (F.chan.mul s F.chan.max) (F.chan.sub F.chan.max F.chan.max)) =
        (fun d s => op d (F.chan.sub F.chan.max (alphaGet F dst)) s
          (F.chan.sub F.chan.max (alphaGet F src))) := by
      funext d s
      rw [hmulmax, hsa]
    rw [composite_channels_matte_eq, composite_channels_eq, hf]
    congr 1
    funext v
    rw [hmulmax, hsa]
  · intro z hmz hsz hop hal
    obtain ⟨aD, haD⟩ : ∃ a, dst.get? F.model.alpha = some a :=
      ⟨dst.get ⟨F.model.alpha, hal⟩, List.get?_eq_get hal⟩
    have hf : (fun d s => op d (F.chan.sub F.chan.max (alphaGet F dst))
        (F.chan.mul s z) (F.chan.sub F.chan.max z)) = (fun d _ => d) := by
      funext d s
      rw [hmz, hsz, hop]
    rw [composite_channels_matte_eq, hf, compositeRange_id]
    unfold setAlphaStep
    rw [haD]
    dsimp only
    rw [hmz, hsz, hop, set_get?_self dst F.model.alpha aD haD]

/-- Witness for the amended C6: source-over with an opaque constant color. -/
theorem c6_matte_endpoints_witness :
    composite_channels_matte rgbaFmt (fun d _ s sa1 => s + d * sa1 / 255) 255
        [10, 20, 30, 100] [50, 60, 70, 255] =
      composite_channels rgbaFmt (fun d _ s sa1 => s + d * sa1 / 255)
        [10, 20, 30, 100] [50, 60, 70, 255]
    ∧ composite_channels_matte rgbaFmt (fun d _ s sa1 => s + d * sa1 / 255) 0
        [10, 20, 30, 100] [50, 60, 70, 255] =
      some [10, 20, 30, 100] := by
  have h := c6_matte_endpoints rgbaFmt (fun d _ s sa1 => s + d * sa1 / 255)
    [10, 20, 30, 100] [50, 60, 70, 255]
    (fun x => Nat.mul_div_cancel x (by decide))
  refine ⟨h.1 (by decide), h.2 0 (fun x => by simp [rgbaFmt, natChan])
    (by decide)
    (fun d u => by
      show 0 + d * 255 / 255 = d
      rw [Nat.zero_add, Nat.mul_div_cancel d (by norm_num)])
    (by decide)⟩

/-! ### C7: `from_bit_depth` panics iff the color models differ -/

/-- C7: `from_bit_depth` is a fatal error (`none`) exactly when the two
color-model ids differ; when they coincide it returns the source's first `N`
channels (here with the source long enough to supply them) each put through
the destination channel type's `From` conversion, with no alpha or gamma
transformation applied. -/
theorem c7_from_bit_depth_model_check (D S : PixFmt C) (cv : C → C)
    (p : List C) :
    (from_bit_depth D S cv p = none ↔ D.model.id ≠ S.model.id)
    ∧ (D.model.id = S.model.id → D.n ≤ p.length →
        from_bit_depth D S cv p = some ((p.take D.n).map cv)) := by
  constructor
  · unfold from_bit_depth
    by_cases h : D.model.id ≠ S.model.id
    · rw [if_pos h]
      simp [h]
    · rw [if_neg h]
      simp [h]
  · intro hid hlen
    unfold from_bit_depth
    rw [if_neg (by simp [hid])]
    congr 1
    apply List.ext_get?
    intro j
    rw [List.get?_map, List.get?_map]
    by_cases hj : j < D.n
    · have hjp : j < p.length := Nat.lt_of_lt_of_le hj hlen
      rw [List.get?_range hj, List.get?_take hj, List.get?_eq_get hjp,
        Option.map_some', Option.map_some']
      unfold chanGet
      rw [List.get?_eq_get hjp]
      rfl
    · have h1 : (List.range D.n).get? j = none := by
        rw [List.get?_eq_none]
        rw [List.length_range]
        exact Nat.le_of_not_lt hj
      have h2 : (p.take D.n).get? j = none := by
        rw [List.get?_eq_none]
        exact Nat.le_trans (Nat.le_trans (List.length_take_le D.n p)
          (Nat.le_refl _)) (Nat.le_of_not_lt hj)
      rw [h1, h2]
      rfl

/-- Witness for C7: a cross-model call panics, a same-model call converts the
first `N` channels. -/
theorem c7_from_bit_depth_model_check_witness :
    from_bit_depth rgbaFmt grayFmt id [1, 2] = none
    ∧ from_bit_depth grayFmt grayFmt (fun c => c + 1) [3, 4] = some [4, 5] := by
  refine ⟨?_, ?_⟩
  · exact (c7_from_bit_depth_model_check rgbaFmt grayFmt id [1, 2]).1.mpr
      (by decide)
  · exact ((c7_from_bit_depth_model_check grayFmt grayFmt (fun c => c + 1)
      [3, 4]).2 rfl (by decide)).trans (by decide)

/-! ### C8: out-of-range accessors return the channel `MAX` sentinel -/

/-- C8: each positional accessor whose index is at or beyond the pixel's
channel count returns `MAX` rather than failing, and the alpha accessor on a
model whose declared alpha index lies beyond the channel count (a model with
no alpha channel) returns `MAX` rather than faulting. -/
theorem c8_out_of_range_accessors (F : PixFmt C) (p : List C) :
    (p.length ≤ 0 → one F p = F.chan.max)
    ∧ (p.length ≤ 1 → two F p = F.chan.max)
    ∧ (p.length ≤ 2 → three F p = F.chan.max)
    ∧ (p.length ≤ 3 → four F p = F.chan.max)
    ∧ (p.length ≤ F.model.alpha → alphaGet F p = F.chan.max) := by
  refine ⟨?_, ?_, ?_, ?_, ?_⟩ <;> intro h
  · unfold one
    rw [List.get?_eq_none.mpr h]
    rfl
  · unfold two
    rw [List.get?_eq_none.mpr h]
    rfl
  · unfold three
    rw [List.get?_eq_none.mpr h]
    rfl
  · unfold four
    rw [List.get?_eq_none.mpr h]
    rfl
  · unfold alphaGet
    rw [List.get?_eq_none.mpr h]
    rfl

/-- Witness for C8: a one-channel pixel of the gray-plus-alpha model (alpha
declared at index 1, beyond the single channel). -/
theorem c8_out_of_range_accessors_witness :
    two grayFmt [5] = 255 ∧ three grayFmt [5] = 255 ∧ four grayFmt [5] = 255
    ∧ alphaGet grayFmt [5] = 255 ∧ one grayFmt ([] : List Nat) = 255 := by
  have h1 := c8_out_of_range_accessors grayFmt [5]
  have h0 := c8_out_of_range_accessors grayFmt ([] : List Nat)
  exact ⟨h1.2.1 (by decide), h1.2.2.1 (by decide), h1.2.2.2.1 (by decide),
    h1.2.2.2.2 (by decide), h0.1 (by decide)⟩

end Pix

namespace PixLegacy

variable {C A : Type}

/-! ### C9: the legacy gray type's RGBA round trip -/

/-- C9: `Gray::rgba` returns `[value, value, value, alpha]` and
`with_rgba(rgba(g)) == g`, given the collaborator laws that the channel's
`max` is idempotent (any total order's is) and that the alpha container's
`From<C>` inverts `Alpha::value()`. -/
theorem c9_gray_rgba_roundtrip (ops : GrayOps C A) (g : Gray C A)
    (hmax : ∀ v, ops.cmax v v = v)
    (hva : ∀ a, ops.alphaFromC (ops.alphaValue a) = a) :
    Gray.rgba ops g = (g.value, g.value, g.value, ops.alphaValue g.alpha)
    ∧ Gray.with_rgba ops (Gray.rgba ops g) = g := by
  constructor
  · rfl
  · unfold Gray.with_rgba Gray.rgba
    dsimp only
    rw [hmax, hmax, hva]

/-- Concrete legacy-gray collaborators: `Nat` channel with ordinary `max`,
alpha container equal to the channel itself. -/
def grayOpsNat : GrayOps Nat Nat :=
  { cmax := Nat.max, alphaValue := fun a => a, alphaFromC := fun c => c }

/-- Witness for C9. -/
theorem c9_gray_rgba_roundtrip_witness :
    Gray.rgba grayOpsNat ⟨7, 200⟩ = (7, 7, 7, 200)
    ∧ Gray.with_rgba grayOpsNat (Gray.rgba grayOpsNat ⟨7, 200⟩) =
        (⟨7, 200⟩ : Gray Nat Nat) :=
  c9_gray_rgba_roundtrip grayOpsNat ⟨7, 200⟩ (fun v => Nat.max_self v)
    (fun _ => rfl)

/-! ### C10: the legacy gray iterator never ends -/

/-- C10: `Iterator::next` on the legacy `Gray` always returns `Some` of the
pixel itself, never `None`, and leaves the pixel unchanged. -/
theorem c10_gray_next_some (g : Gray C A) :
    (grayNext g).1 = some g ∧ (grayNext g).1 ≠ none ∧ (grayNext g).2 = g :=
  ⟨rfl, fun h => Option.noConfusion h, rfl⟩

end PixLegacy
